import Mathlib

/-!
Verification development for the stravax Strava leaderboard client
(scheibo/leaderboard).  The Go source is shallowly embedded: pure helper
functions become Lean functions, Go float64 values are modelled as exact
rationals, Go int64 as Int (with explicit range checks where the source
checks them), fallible functions return Except, and the HTTP transport is
modelled as an oracle list of responses consumed one per request (exactly
like the repository's own stubResponseTransport, which serves canned
bodies in request order).
-/

deriving instance DecidableEq for Except

namespace Stravax

/- Gender is the gender of the athlete (a string in the source: "", "M", "F"). -/
abbrev Gender := String

/- Filter is the filter used on the leaderboard ("overall" / "current_year"). -/
abbrev Filter := String

namespace Genders

def Unspecified : Gender := ""

def Male : Gender := "M"

def Female : Gender := "F"

end Genders

namespace Filters

def Overall : Filter := "overall"

def CurrentYear : Filter := "current_year"

end Filters

/- Go time.Duration values are int64 counts of nanoseconds. -/
def Nanosecond : Int := 1

def Second : Int := 1000000000

/- QPS_LIMIT is (per its doc comment) the maximum number of requests per
second the client should make.  The constant itself is the untyped 10. -/
def QPS_LIMIT : Int := 10

/- MAX_PER_PAGE is the maximum number of entries requested per page. -/
def MAX_PER_PAGE : Int := 100

/- NewClient sets `throttle: time.Tick(QPS_LIMIT)`.  time.Tick takes a
time.Duration, so the channel ticks every QPS_LIMIT (= 10) nanoseconds.
We record the Duration argument handed to time.Tick. -/
def NewClientThrottle : Option Int := some (QPS_LIMIT * Nanosecond)

/- NewStubClient builds a Client with the zero value throttle (nil). -/
def NewStubClientThrottle : Option Int := none

/- Client.request() waits on the tick channel iff the throttle is non-nil. -/
def requestWaitsForTick (throttle : Option Int) : Bool := throttle.isSome

/- strings.TrimSpace: Go trims the Unicode white space set; the characters
below are the White_Space code points up to U+00A0 (all that can occur in
the scraped pages). -/
def isGoSpace (c : Char) : Bool :=
  c = ' ' || c = '\t' || c = '\n' || c = '\x0b' || c = '\x0c' || c = '\r' ||
    c = '\x85' || c = '\xa0'

def trimSpace (s : String) : String :=
  ⟨((s.data.dropWhile isGoSpace).reverse.dropWhile isGoSpace).reverse⟩

/- strings.Split with a one-character separator (the source only splits on
":" and "/").  Like Go, splitting the empty string yields one empty field,
and the result is always non-empty. -/
def splitCharList (sep : Char) : List Char → List (List Char)
  | [] => [[]]
  | c :: rest =>
    match splitCharList sep rest with
    | [] => [[]]
    | g :: gs => if c = sep then [] :: g :: gs else (c :: g) :: gs

def goSplit (s : String) (sep : Char) : List String :=
  (splitCharList sep s.data).map fun cs => ⟨cs⟩

/- strings.TrimPrefix / strings.TrimSuffix. -/
def trimPfx (s pre : String) : String :=
  if pre.data.isPrefixOf s.data then ⟨s.data.drop pre.data.length⟩ else s

def trimSfx (s suf : String) : String :=
  if suf.data.isSuffixOf s.data then ⟨s.data.take (s.data.length - suf.data.length)⟩ else s

def digitVal (c : Char) : Nat := c.toNat - 48

def decVal (ds : List Char) : Nat := ds.foldl (fun a c => 10 * a + digitVal c) 0

/- Strips one optional leading sign, exactly as strconv does. -/
def signSplit : List Char → Bool × List Char
  | [] => (false, [])
  | c :: rest =>
    if c = '+' then (false, rest)
    else if c = '-' then (true, rest)
    else (false, c :: rest)

def intErrSyntax (s : String) : String :=
  "strconv.ParseInt: parsing \"" ++ s ++ "\": invalid syntax"

def intErrRange (s : String) : String :=
  "strconv.ParseInt: parsing \"" ++ s ++ "\": value out of range"

def int64Max : Int := 9223372036854775807

def int64Min : Int := -9223372036854775808

/- parseInt wraps strconv.ParseInt(s, 10, 0): optional sign, then at least
one decimal digit and nothing else; int64 range checked. -/
def parseInt (s : String) : Except String Int :=
  let p := signSplit s.data
  if p.2.isEmpty || !(p.2.all Char.isDigit) then .error (intErrSyntax s)
  else
    let n : Int := (decVal p.2 : Nat)
    let v : Int := if p.1 then -n else n
    if v < int64Min || int64Max < v then .error (intErrRange s)
    else .ok v

def floatErr (s : String) : String :=
  "strconv.ParseFloat: parsing \"" ++ s ++ "\": invalid syntax"

/- Powers of ten, written out structurally so that concrete values of the
parsers reduce inside the kernel. -/
def pow10 : Nat → ℚ
  | 0 => 1
  | n + 1 => 10 * pow10 n

def pow10Z (e : Int) : ℚ := if 0 ≤ e then pow10 e.toNat else 1 / pow10 (-e).toNat

/- Decimal mantissa: digits, optionally with a decimal point; at least one
digit overall.  Returns the exact rational value and the unconsumed rest. -/
def parseMantissa (cs : List Char) : Option (ℚ × List Char) :=
  let ip := cs.takeWhile Char.isDigit
  let r1 := cs.dropWhile Char.isDigit
  match r1 with
  | '.' :: r2 =>
    let fp := r2.takeWhile Char.isDigit
    let r3 := r2.dropWhile Char.isDigit
    if ip.isEmpty && fp.isEmpty then none
    else some ((decVal ip : ℚ) + (decVal fp : ℚ) / pow10 fp.length, r3)
  | _ => if ip.isEmpty then none else some ((decVal ip : ℚ), r1)

/- Optional exponent part, consuming the whole remainder. -/
def parseExpPart : List Char → Option Int
  | [] => some 0
  | e :: rest =>
    if e = 'e' || e = 'E' then
      let q := signSplit rest
      if q.2.isEmpty || !(q.2.all Char.isDigit) then none
      else some (if q.1 then -(decVal q.2 : Int) else (decVal q.2 : Int))
    else none

/- parseFloat wraps strconv.ParseFloat(s, 64) for the decimal forms that
occur on the scraped pages (sign, digits, optional point and exponent);
values are modelled as exact rationals. -/
def parseFloat (s : String) : Except String ℚ :=
  let p := signSplit s.data
  match parseMantissa p.2 with
  | none => .error (floatErr s)
  | some (m, r) =>
    match parseExpPart r with
    | none => .error (floatErr s)
    | some e =>
      let v := m * pow10Z e
      .ok (if p.1 then -v else v)

/- The calendar date produced by time.Parse("Jan 2, 2006", ...). -/
structure GoDate where
  year : Int
  month : Nat
  day : Nat
deriving DecidableEq

def shortMonths : List String :=
  ["Jan", "Feb", "Mar", "Apr", "May", "Jun", "Jul", "Aug", "Sep", "Oct", "Nov", "Dec"]

def eqFoldChar (a b : Char) : Bool := a.toLower = b.toLower

def eqFold (a b : List Char) : Bool :=
  a.length == b.length && ((a.zip b).all fun p => eqFoldChar p.1 p.2)

/- Month lookup, ASCII case-insensitive like Go's layout matcher. -/
def monthMatch (cs : List Char) : Option (Nat × List Char) :=
  (List.range 12).findSome? fun i =>
    if eqFold (cs.take 3) (shortMonths.getD i "").data then some (i + 1, cs.drop 3)
    else none

def dateErr (s : String) : String :=
  "parsing time \"" ++ s ++ "\" as \"Jan 2, 2006\": cannot parse"

def dateErrRange (s : String) : String :=
  "parsing time \"" ++ s ++ "\": day out of range"

def daysIn (month : Nat) (year : Int) : Nat :=
  if month = 2 then
    (if year % 4 = 0 ∧ (year % 100 ≠ 0 ∨ year % 400 = 0) then 29 else 28)
  else if month = 4 ∨ month = 6 ∨ month = 9 ∨ month = 11 then 30 else 31

/- The day field of layout "2": one digit, or two if the next is a digit. -/
def parseDayDigits : List Char → Option (Nat × List Char)
  | [] => none
  | d1 :: rest =>
    if d1.isDigit then
      match rest with
      | d2 :: rest2 =>
        if d2.isDigit then some (10 * digitVal d1 + digitVal d2, rest2)
        else some (digitVal d1, d2 :: rest2)
      | [] => some (digitVal d1, [])
    else none

/- The year field of layout "2006": exactly four digits, ending the input. -/
def parseYear4 : List Char → Option Int
  | [y1, y2, y3, y4] =>
    if y1.isDigit && y2.isDigit && y3.isDigit && y4.isDigit then
      some ((1000 * digitVal y1 + 100 * digitVal y2 + 10 * digitVal y3 + digitVal y4 : Nat) : Int)
    else none
  | _ => none

/- time.Parse("Jan 2, 2006", s): short month name, space, 1-2 digit day,
", ", four-digit year; the whole input must be consumed and the day must be
in range for the month. -/
def parseDate (s : String) : Except String GoDate :=
  match monthMatch s.data with
  | none => .error (dateErr s)
  | some (mon, r1) =>
    match r1 with
    | ' ' :: r2 =>
      match parseDayDigits r2 with
      | none => .error (dateErr s)
      | some (day, r3) =>
        match r3 with
        | ',' :: ' ' :: r4 =>
          match parseYear4 r4 with
          | none => .error (dateErr s)
          | some year =>
            if day < 1 ∨ daysIn mon year < day then .error (dateErrRange s)
            else .ok ⟨year, mon, day⟩
        | _ => .error (dateErr s)
    | _ => .error (dateErr s)

/- parseElapsedTime splits on ":"; three components pop hours, then two pop
minutes, and the final component (with a trailing "s" trimmed) is seconds.
Go returns (0, err) on any component failure; Except carries the same
information. -/
def parseElapsedTime (str : String) : Except String Int :=
  let a := goSplit str ':'
  match (if a.length = 3 then (parseInt (a.headD "")).map (fun h => (h, a.drop 1)) else .ok ((0 : Int), a)) with
  | .error e => .error e
  | .ok (h, a1) =>
    match (if a1.length = 2 then (parseInt (a1.headD "")).map (fun m => (m, a1.drop 1)) else .ok ((0 : Int), a1)) with
    | .error e => .error e
    | .ok (m, a2) =>
      match parseInt (trimSfx (a2.headD "") "s") with
      | .error e => .error e
      | .ok sec => .ok (h * 3600 + m * 60 + sec)


/- Athlete holds the information about an athlete needed for a leaderboard.
The gender is the caller's query filter, copied into every row. -/
structure Athlete where
  URL : String
  Name : String
  Gender : Gender
deriving DecidableEq

/- Segment contains the Strava segment details.  float64 fields are
modelled as exact rationals. -/
structure Segment where
  ID : Int
  Name : String
  Location : String
  Distance : ℚ
  AverageGrade : ℚ
  ElevationLow : ℚ
  ElevationHigh : ℚ
  TotalElevationGain : ℚ
deriving DecidableEq

/- LeaderboardEntry is a single entry in a leaderboard. -/
structure LeaderboardEntry where
  Rank : Int
  Athlete : Athlete
  EffortID : Int
  StartDate : GoDate
  ElapsedTime : Int
deriving DecidableEq

/- Leaderboard contains entries in fetch order plus the last banner count. -/
structure Leaderboard where
  Entries : List LeaderboardEntry
  EntriesCount : Int
deriving DecidableEq

/- The fields of the upstream go.strava SegmentDetailed record that
GetSegment reads.  The typed API is an external collaborator; its reply is
an input of the model. -/
structure APISegment where
  Name : String
  City : String
  State : String
  Distance : ℚ
  ElevationLow : ℚ
  ElevationHigh : ℚ
  TotalElevationGain : ℚ
deriving DecidableEq

/- One row of the ".table-leaderboard tbody tr" table, abstracted to the
cells the parser reads: td 0 text (rank), td 1 link href and text
(athlete), td 2 text (date) and link href (effort), td 7 text (elapsed
time).  A missing link is None, exactly like a failed goquery Attr call;
a missing cell reads as the empty string. -/
structure Row where
  rankText : String
  athleteHref : Option String
  athleteText : String
  dateText : String
  effortHref : Option String
  elapsedText : String
deriving DecidableEq

/- The parts of a fetched leaderboard page document that the parsers
query.  paginationLis holds the class lists of the ".pagination li"
elements in document order; statTexts the texts of the ".stat-text"
selection (Contents().Not("abbr").Text() per index). -/
structure Doc where
  standing : String
  rows : List Row
  paginationLis : List (List String)
  segmentIDAttr : Option String
  segmentNameAttr : Option String
  locationText : String
  statTexts : List String
deriving DecidableEq

/- goquery Selection.HasClass over a selection of elements given by their
class lists: true when any selected element carries the class. -/
def hasClass (cls : String) (sel : List (List String)) : Bool :=
  sel.any fun li => li.any fun c => c == cls

/- ".pagination li:nth-last-child(2)": the second-to-last pagination item,
when there are at least two. -/
def paginationSecondToLast (d : Doc) : List (List String) :=
  if 2 ≤ d.paginationLis.length then [d.paginationLis.getD (d.paginationLis.length - 2) []]
  else []

/- ".pagination li.next_page": the pagination items carrying class
next_page. -/
def paginationNextPage (d : Doc) : List (List String) :=
  d.paginationLis.filter fun li => li.any fun c => c == "next_page"

/- isFinalPage: the second-to-last pagination control is "active", or the
next_page control is "disabled" (combined with OR in the source). -/
def isFinalPage (d : Doc) : Bool :=
  hasClass "active" (paginationSecondToLast d) || hasClass "disabled" (paginationNextPage d)

/- parseStat reads stats.Eq(i); an out-of-range index gives an empty
selection whose text is "". -/
def parseStat (stats : List String) (i : Nat) : Except String ℚ :=
  parseFloat (stats.getD i "")

/- parseSegment builds a Segment from the page markup: id and name from
attributes, stats 0/2/3/4 as distance (km, scaled by 1000), elevation low,
elevation high, and raw gain; the gain is the larger of the raw value and
high - low, and the average grade is derived. -/
def parseSegment (d : Doc) : Except String Segment :=
  match d.segmentIDAttr with
  | none => .error "could not find segment ID"
  | some attr =>
    match parseInt attr with
    | .error e => .error e
    | .ok id =>
      match d.segmentNameAttr with
      | none => .error "could not find segment name"
      | some name =>
        match parseStat d.statTexts 0 with
        | .error e => .error e
        | .ok v0 =>
          match parseStat d.statTexts 2 with
          | .error e => .error e
          | .ok elo =>
            match parseStat d.statTexts 3 with
            | .error e => .error e
            | .ok ehi =>
              match parseStat d.statTexts 4 with
              | .error e => .error e
              | .ok vg =>
                .ok ⟨id, name, trimSpace d.locationText, v0 * 1000,
                     (if vg > ehi - elo then vg else ehi - elo) / (v0 * 1000) * 100,
                     elo, ehi, if vg > ehi - elo then vg else ehi - elo⟩

/- GetSegment maps the typed-API record into a Segment with the same
max(raw gain, high - low) derivation.  (The call also increments the
request counter; the counter is modelled with the scrape path below.) -/
def GetSegment (segmentID : Int) (api : Except String APISegment) : Except String Segment :=
  match api with
  | .error e => .error e
  | .ok seg =>
    .ok ⟨segmentID, seg.Name, seg.City ++ ", " ++ seg.State, seg.Distance,
         (if seg.TotalElevationGain > seg.ElevationHigh - seg.ElevationLow
          then seg.TotalElevationGain else seg.ElevationHigh - seg.ElevationLow) /
           seg.Distance * 100,
         seg.ElevationLow, seg.ElevationHigh,
         if seg.TotalElevationGain > seg.ElevationHigh - seg.ElevationLow
         then seg.TotalElevationGain else seg.ElevationHigh - seg.ElevationLow⟩

/- One EachWithBreak step of parseLeaderboard: rank (default 1 when the
cell is blank), athlete link (required), start date, effort id (required
link, "/segment_efforts/" trimmed), and elapsed time whose parse error is
discarded, leaving the returned 0. -/
def parseRow (g : Gender) (row : Row) : Except String LeaderboardEntry :=
  match (if trimSpace row.rankText = "" then Except.ok (1 : Int)
      else parseInt (trimSpace row.rankText)) with
  | .error e => .error e
  | .ok rank =>
    match row.athleteHref with
    | none => .error "could not find athlete URL"
    | some href =>
      match parseDate (trimSpace row.dateText) with
      | .error e => .error e
      | .ok startDate =>
        match row.effortHref with
        | none => .error "could not find effort ID"
        | some ehref =>
          match parseInt (trimPfx ehref "/segment_efforts/") with
          | .error e => .error e
          | .ok effortID =>
            .ok ⟨rank, ⟨"https://www.strava.com" ++ href, trimSpace row.athleteText, g⟩,
                 effortID, startDate,
                 match parseElapsedTime (trimSpace row.elapsedText) with
                 | .ok v => v
                 | .error _ => 0⟩

/- EachWithBreak over the rows: entries accumulate until the first failing
row, whose error fails the whole page. -/
def parseRows (g : Gender) : List Row → Except String (List LeaderboardEntry)
  | [] => .ok []
  | row :: rest =>
    match parseRow g row with
    | .error e => .error e
    | .ok entry =>
      match parseRows g rest with
      | .error e => .error e
      | .ok es => .ok (entry :: es)

/- parseLeaderboard: the "X / Y" standings banner (text split on "/",
last field, trimmed) gives EntriesCount; then the table rows. -/
def parseLeaderboard (d : Doc) (g : Gender) : Except String Leaderboard :=
  match parseInt (trimSpace ((goSplit d.standing '/').getLastD "")) with
  | .error e => .error e
  | .ok val =>
    match parseRows g d.rows with
    | .error e => .error e
    | .ok entries => .ok ⟨entries, val⟩

/- getLeaderboardURL: base, then date_range=this_year& for the
current-year filter, then filter/gender/per_page. -/
def getLeaderboardURL (segmentID : Int) (gender : Gender) (filter : Filter) : String :=
  let url := "https://www.strava.com/segments/" ++ toString segmentID ++ "?"
  let url := if filter = Filters.CurrentYear then url ++ "date_range=this_year&" else url
  url ++ "filter=" ++ filter ++ "&gender=" ++ gender ++ "&per_page=" ++ toString MAX_PER_PAGE

/- One canned transport reply: a transport-level failure, a body the
document builder rejects, or a parsed document. -/
inductive Response where
  | transportError (msg : String)
  | malformed (msg : String)
  | doc (d : Doc)
deriving DecidableEq

/- The observable client state: the oracle of upcoming replies (consumed
one per request, like stubResponseTransport), the RequestCount field, and
the list of URLs requested so far. -/
structure St where
  responses : List Response
  requestCount : Int
  trace : List String
deriving DecidableEq

/- The URL of a page request: fmt.Sprintf("%s&page=%d", url, page). -/
def reqURL (url : String) (page : Int) : String :=
  url ++ "&page=" ++ toString page

def noResponse : String := "Get: no response"

/- The pure part of getLeaderboardPageForURL once a reply is on hand:
optionally parse the segment, parse the leaderboard, and compute
final = len(entries) == 0 || isFinalPage(doc). -/
def processResponse (g : Gender) (includeSegment : Bool) :
    Response → Except String (Leaderboard × Option Segment × Bool)
  | .transportError e => .error e
  | .malformed e => .error e
  | .doc d =>
    match (if includeSegment then (parseSegment d).map some else .ok none) with
    | .error e => .error e
    | .ok seg =>
      match parseLeaderboard d g with
      | .error e => .error e
      | .ok lb => .ok (lb, seg, lb.Entries.isEmpty || isFinalPage d)

/- getLeaderboardPageForURL: c.request() (count increment; the throttle
wait has no observable effect here), then GET url&page=<page> consuming
the next oracle reply, then parsing.  An exhausted oracle behaves as a
transport failure. -/
def getLeaderboardPageForURL (st : St) (url : String) (g : Gender) (page : Int)
    (includeSegment : Bool) : St × Except String (Leaderboard × Option Segment × Bool) :=
  match st.responses with
  | [] => (⟨[], st.requestCount + 1, st.trace ++ [reqURL url page]⟩, .error noResponse)
  | r :: rest =>
    (⟨rest, st.requestCount + 1, st.trace ++ [reqURL url page]⟩, processResponse g includeSegment r)

/- The body of getLeaderboard's `for ; !final; page++` loop, entered when
the previous fetch was not final.  Each iteration fetches `page` (Go's
post statement increments only after the body, so the first iteration
re-uses the page number of the previous fetch), merges the entries,
overwrites EntriesCount with the newly claimed count, and stops after a
final page or on the first error. -/
def getLeaderboardLoop (g : Gender) (url : String) :
    List Response → Int → List String → Leaderboard → Int → St × Except String Leaderboard
  | [], count, trace, _, page =>
    (⟨[], count + 1, trace ++ [reqURL url page]⟩, .error noResponse)
  | r :: rest, count, trace, lb, page =>
    match processResponse g false r with
    | .error e => (⟨rest, count + 1, trace ++ [reqURL url page]⟩, .error e)
    | .ok (next, _, final) =>
      let lb2 : Leaderboard := ⟨lb.Entries ++ next.Entries, next.EntriesCount⟩
      if final then (⟨rest, count + 1, trace ++ [reqURL url page]⟩, .ok lb2)
      else getLeaderboardLoop g url rest (count + 1) (trace ++ [reqURL url page]) lb2 (page + 1)

/- getLeaderboard: fetch page 1 (with the segment when requested), then
loop while not final.  The loop is entered with page still equal to 1,
exactly as in the source. -/
def getLeaderboard (st : St) (segmentID : Int) (g : Gender) (f : Filter)
    (includeSegment : Bool) : St × Except String (Leaderboard × Option Segment) :=
  let url := getLeaderboardURL segmentID g f
  match getLeaderboardPageForURL st url g 1 includeSegment with
  | (st1, .error e) => (st1, .error e)
  | (st1, .ok (lb, seg, final)) =>
    if final then (st1, .ok (lb, seg))
    else
      match getLeaderboardLoop g url st1.responses st1.requestCount st1.trace lb 1 with
      | (st2, .error e) => (st2, .error e)
      | (st2, .ok lb2) => (st2, .ok (lb2, seg))

/- GetLeaderboardAndSegment returns the leaderboard and the segment. -/
def GetLeaderboardAndSegment (st : St) (segmentID : Int) (g : Gender) (f : Filter) :
    St × Except String (Leaderboard × Option Segment) :=
  getLeaderboard st segmentID g f true

/- GetLeaderboard returns the leaderboard only. -/
def GetLeaderboard (st : St) (segmentID : Int) (g : Gender) (f : Filter) :
    St × Except String Leaderboard :=
  match getLeaderboard st segmentID g f false with
  | (st1, .error e) => (st1, .error e)
  | (st1, .ok (lb, _)) => (st1, .ok lb)

/- GetLeaderboardPage fetches exactly one page. -/
def GetLeaderboardPage (st : St) (segmentID : Int) (g : Gender) (f : Filter) (page : Int) :
    St × Except String Leaderboard :=
  match getLeaderboardPageForURL st (getLeaderboardURL segmentID g f) g page false with
  | (st1, .error e) => (st1, .error e)
  | (st1, .ok (lb, _, _)) => (st1, .ok lb)

/- GetLeaderboardPageAndSegment fetches exactly one page plus segment. -/
def GetLeaderboardPageAndSegment (st : St) (segmentID : Int) (g : Gender) (f : Filter)
    (page : Int) : St × Except String (Leaderboard × Option Segment) :=
  match getLeaderboardPageForURL st (getLeaderboardURL segmentID g f) g page true with
  | (st1, .error e) => (st1, .error e)
  | (st1, .ok (lb, seg, _)) => (st1, .ok (lb, seg))

/- The entries of a canned page, as parseLeaderboard extracts them (used
only to state the loop characterization; empty off the document case). -/
def respEntries (g : Gender) (r : Response) : List LeaderboardEntry :=
  match r with
  | .doc d =>
    match parseLeaderboard d g with
    | .ok lb => lb.Entries
    | .error _ => []
  | _ => []

/- The claimed entries_count banner of a canned page. -/
def respCount (g : Gender) (r : Response) : Int :=
  match r with
  | .doc d =>
    match parseLeaderboard d g with
    | .ok lb => lb.EntriesCount
    | .error _ => 0
  | _ => 0

/- A reply that parses into a non-empty, non-final leaderboard page. -/
def nonFinalOk (g : Gender) (r : Response) : Prop :=
  ∃ d lb, r = .doc d ∧ parseLeaderboard d g = .ok lb ∧ lb.Entries ≠ [] ∧ isFinalPage d = false

/- A well-formed leaderboard row used in concrete runs. -/
def rowA : Row :=
  ⟨"1", some "/athletes/5", "Alice", "Jan 2, 2018", some "/segment_efforts/77", "5:30"⟩

/- The entry rowA parses to. -/
def entryA : LeaderboardEntry :=
  ⟨1, ⟨"https://www.strava.com/athletes/5", "Alice", "M"⟩, 77, ⟨2018, 1, 2⟩, 330⟩

/- A non-final page with one row and banner count 474. -/
def docA : Doc :=
  { standing := "1 / 474"
    rows := [rowA]
    paginationLis := [["active"], [], ["next_page"]]
    segmentIDAttr := some "2198806"
    segmentNameAttr := some "PCSD"
    locationText := "Dixon, CA"
    statTexts := ["16.11", "0.0", "83", "96", "13"] }

/- A page with zero rows whose banner still claims 999 entries. -/
def docB : Doc :=
  { standing := "1 / 999"
    rows := []
    paginationLis := []
    segmentIDAttr := none
    segmentNameAttr := none
    locationText := ""
    statTexts := [] }

/- rowA with an unparsable elapsed-time cell. -/
def rowBadElapsed : Row :=
  { rowA with elapsedText := "abc" }

/- rowA with the athlete link missing. -/
def rowNoHref : Row :=
  { rowA with athleteHref := none }

/- docA with its row's athlete link missing. -/
def docNoHref : Doc :=
  { docA with rows := [rowNoHref] }


/- The sequence of request URLs issued by a block of page fetches that
starts at the given page number and increments it once per fetch. -/
def pagesTrace (url : String) (page : Int) : Nat → List String
  | 0 => []
  | n + 1 => reqURL url page :: pagesTrace url (page + 1) n

/- Whether a fallible computation succeeded (helper for stating success
independence). -/
def exceptOk {ε α : Type} : Except ε α → Bool
  | .ok _ => true
  | .error _ => false

/- The upstream API record for the PCSD test segment (values from the
repository's own golden test). -/
def apiPCSD : APISegment := ⟨"PCSD", "Dixon", "CA", 16110, 83, 96, 13⟩

/- The Segment GetSegment builds from apiPCSD. -/
def segPCSD : Segment := ⟨2198806, "PCSD", "Dixon, CA", 16110, 13 / 16110 * 100, 83, 96, 13⟩

/- A small scraped page carrying only segment stats, and the Segment it
parses to. -/
def docSeg : Doc := ⟨"", [], [], some "7", some "N", "L", ["2", "0", "5", "9", "3"]⟩

def segDoc : Segment := ⟨7, "N", "L", 2000, 4 / 2000 * 100, 5, 9, 4⟩

theorem getLast?_elim_irrel {α β : Type} (f : α → β) :
    ∀ (x : α) (l : List α) (b b' : β),
      ((x :: l).getLast?).elim b f = ((x :: l).getLast?).elim b' f := by
  intro x l
  induction l generalizing x with
  | nil => intro b b'; rfl
  | cons y ys ih =>
    intro b b'
    rw [List.getLast?_cons_cons]
    exact ih y b b'

theorem getLast?_elim_cons {α β : Type} (f : α → β) (a : β) (r : α) (gs : List α) :
    ((r :: gs).getLast?).elim a f = (gs.getLast?).elim (f r) f := by
  cases gs with
  | nil => rfl
  | cons x xs =>
    rw [List.getLast?_cons_cons]
    exact getLast?_elim_irrel f x xs a (f r)

theorem isEmpty_false_of_ne_nil {α : Type} {l : List α} (h : l ≠ []) : l.isEmpty = false := by
  cases l with
  | nil => exact absurd rfl h
  | cons x xs => rfl

/- Running the reconciliation loop over a block of parsable, non-empty,
non-final pages: each page costs one request at the current page number,
appends its entries, and overwrites the claimed count. -/
theorem getLeaderboardLoop_goods (g : Gender) (url : String) :
    ∀ (goods : List Response), (∀ r ∈ goods, nonFinalOk g r) →
    ∀ (rest : List Response) (count : Int) (trace : List String) (lb : Leaderboard) (page : Int),
    getLeaderboardLoop g url (goods ++ rest) count trace lb page =
      getLeaderboardLoop g url rest (count + goods.length)
        (trace ++ pagesTrace url page goods.length)
        ⟨lb.Entries ++ (goods.map (respEntries g)).flatten,
         (goods.getLast?).elim lb.EntriesCount (respCount g)⟩
        (page + goods.length) := by
  intro goods
  induction goods with
  | nil =>
    intro _ rest count trace lb page
    simp [pagesTrace]
  | cons r gs ih =>
    intro h rest count trace lb page
    obtain ⟨d, lb', hr, hparse, hne, hnf⟩ := h r (List.mem_cons_self r gs)
    subst hr
    have hstep :
        processResponse g false (.doc d) = .ok (lb', none, false) := by
      simp [processResponse, hparse, isEmpty_false_of_ne_nil hne, hnf]
    rw [List.cons_append, getLeaderboardLoop, hstep]
    simp only [if_neg (by simp : ¬ (false = true))]
    rw [ih (fun r hr => h r (List.mem_cons_of_mem _ hr)) rest (count + 1)
      (trace ++ [reqURL url page]) ⟨lb.Entries ++ lb'.Entries, lb'.EntriesCount⟩ (page + 1)]
    have hcount : count + 1 + (gs.length : Int) = count + (((gs.length : Nat) : Int) + 1) := by
      ring
    have htrace :
        (trace ++ [reqURL url page]) ++ pagesTrace url (page + 1) gs.length =
          trace ++ pagesTrace url page (gs.length + 1) := by
      rw [pagesTrace, List.append_assoc, List.singleton_append]
    have hentries :
        (lb.Entries ++ lb'.Entries) ++ (gs.map (respEntries g)).flatten =
          lb.Entries ++ ((Response.doc d :: gs).map (respEntries g)).flatten := by
      rw [List.map_cons, List.flatten_cons, List.append_assoc]
      congr 2
      simp [respEntries, hparse]
    have hlast :
        (gs.getLast?).elim lb'.EntriesCount (respCount g) =
          ((Response.doc d :: gs).getLast?).elim lb.EntriesCount (respCount g) := by
      rw [getLast?_elim_cons]
      congr 1
      simp [respCount, hparse]
    have hpage : page + 1 + (gs.length : Int) = page + (((gs.length : Nat) : Int) + 1) := by
      ring
    rw [hcount, htrace, hentries, hlast, hpage]
    norm_cast


theorem pagesTrace_snoc (url : String) : ∀ (n : Nat) (p : Int),
    pagesTrace url p n ++ [reqURL url (p + n)] = pagesTrace url p (n + 1) := by
  intro n
  induction n with
  | zero =>
    intro p
    simp [pagesTrace]
  | succ m ih =>
    intro p
    have hc : p + ((m + 1 : Nat) : Int) = (p + 1) + (m : Int) := by
      push_cast
      ring
    rw [pagesTrace, List.cons_append, hc, ih (p + 1)]
    rfl

/-- Claim C1: a multi-page retrieval through the shared driver of
GetLeaderboard and GetLeaderboardAndSegment stops right after the first
fetched page that is final (in particular one with zero entries, whatever
its banner claims): that page's entries are still appended, no further
response is consumed, and the returned EntriesCount is the banner value
parsed from the last page actually fetched. -/
theorem getLeaderboard_final_page_semantics
    (id : Int) (g : Gender) (f : Filter) (incl : Bool)
    (first dlast : Doc) (mids rest : List Response)
    (lb0 lbN : Leaderboard) (count : Int) (trace : List String)
    (h0 : parseLeaderboard first g = .ok lb0)
    (h0ne : lb0.Entries ≠ [])
    (h0nf : isFinalPage first = false)
    (hseg : incl = true → ∃ s, parseSegment first = .ok s)
    (hmids : ∀ r ∈ mids, nonFinalOk g r)
    (hlast : parseLeaderboard dlast g = .ok lbN)
    (hfin : lbN.Entries = [] ∨ isFinalPage dlast = true) :
    getLeaderboard ⟨.doc first :: (mids ++ .doc dlast :: rest), count, trace⟩ id g f incl =
      (⟨rest, count + ((mids.length : Int) + 2),
        trace ++ reqURL (getLeaderboardURL id g f) 1 ::
          pagesTrace (getLeaderboardURL id g f) 1 (mids.length + 1)⟩,
       .ok (⟨(lb0.Entries ++ (mids.map (respEntries g)).flatten) ++ lbN.Entries,
             lbN.EntriesCount⟩,
            if incl then (parseSegment first).toOption else none)) := by
  have h1 : getLeaderboardPageForURL ⟨.doc first :: (mids ++ .doc dlast :: rest), count, trace⟩
      (getLeaderboardURL id g f) g 1 incl
      = (⟨mids ++ .doc dlast :: rest, count + 1, trace ++ [reqURL (getLeaderboardURL id g f) 1]⟩,
         .ok (lb0, (if incl then (parseSegment first).toOption else none), false)) := by
    cases incl with
    | false =>
      simp [getLeaderboardPageForURL, processResponse, h0, isEmpty_false_of_ne_nil h0ne, h0nf]
    | true =>
      obtain ⟨s, hs⟩ := hseg rfl
      simp [getLeaderboardPageForURL, processResponse, hs, h0, isEmpty_false_of_ne_nil h0ne,
        h0nf, Except.toOption, Except.map]
  have hfinal : (lbN.Entries.isEmpty || isFinalPage dlast) = true := by
    rcases hfin with hfe | hfi
    · simp [hfe]
    · simp [hfi]
  have hstepN : processResponse g false (.doc dlast) = .ok (lbN, none, true) := by
    simp [processResponse, hlast, hfinal]
  rw [getLeaderboard, h1]
  simp only [Bool.false_eq_true, if_false]
  rw [getLeaderboardLoop_goods g (getLeaderboardURL id g f) mids hmids
    (.doc dlast :: rest) (count + 1) (trace ++ [reqURL (getLeaderboardURL id g f) 1]) lb0 1,
    getLeaderboardLoop, hstepN]
  have hcount : count + 1 + (mids.length : Int) + 1 = count + ((mids.length : Int) + 2) := by
    ring
  have htrace :
      ((trace ++ [reqURL (getLeaderboardURL id g f) 1]) ++
          pagesTrace (getLeaderboardURL id g f) 1 mids.length) ++
        [reqURL (getLeaderboardURL id g f) (1 + (mids.length : Int))] =
      trace ++ reqURL (getLeaderboardURL id g f) 1 ::
        pagesTrace (getLeaderboardURL id g f) 1 (mids.length + 1) := by
    rw [List.append_assoc (trace ++ [reqURL (getLeaderboardURL id g f) 1]),
      pagesTrace_snoc, List.append_assoc, List.singleton_append]
  rw [hcount, htrace]
  simp


/-- Witness for C1: a non-final page followed by a page with zero rows
whose banner claims 999 entries; the run stops after the second fetch,
keeps the first page's entry, and reports EntriesCount 999 from the last
fetched page. -/
theorem getLeaderboard_final_page_semantics_witness :
    getLeaderboard ⟨[.doc docA, .doc docB], 0, []⟩ 1234 "M" "overall" false =
      (⟨[], 2, [reqURL (getLeaderboardURL 1234 "M" "overall") 1,
                reqURL (getLeaderboardURL 1234 "M" "overall") 1]⟩,
       .ok (⟨[entryA], 999⟩, none)) := by
  have h := getLeaderboard_final_page_semantics 1234 "M" "overall" false docA docB [] []
    ⟨[entryA], 474⟩ ⟨[], 999⟩ 0 []
    (by decide) (by decide) (by decide)
    (fun hc => Bool.noConfusion hc)
    (fun r hr => absurd hr (List.not_mem_nil r))
    (by decide) (Or.inl rfl)
  simpa [pagesTrace] using h

/- Shared driver lemma: the first failing response aborts getLeaderboard
with exactly that error after consuming no further response. -/
theorem getLeaderboard_drive_error
    (id : Int) (g : Gender) (f : Filter) (incl : Bool)
    (goods : List Response) (bad : Response) (rest : List Response)
    (count : Int) (trace : List String) (e : String)
    (hgoods : ∀ r ∈ goods, nonFinalOk g r)
    (hseg : incl = true → ∀ d, goods.head? = some (.doc d) → ∃ s, parseSegment d = .ok s)
    (hbad : processResponse g (incl && goods.isEmpty) bad = .error e) :
    getLeaderboard ⟨goods ++ bad :: rest, count, trace⟩ id g f incl =
      (⟨rest, count + ((goods.length : Int) + 1),
        trace ++ reqURL (getLeaderboardURL id g f) 1 ::
          pagesTrace (getLeaderboardURL id g f) 1 goods.length⟩,
       .error e) := by
cases goods with
| nil =>
  simp only [List.isEmpty_nil, Bool.and_true] at hbad
  simp [getLeaderboard, getLeaderboardPageForURL, hbad, pagesTrace]
| cons r gs =>
  simp only [List.isEmpty_cons, Bool.and_false] at hbad
  obtain ⟨d, lb', hr, hparse, hne, hnf⟩ := hgoods r (List.mem_cons_self r gs)
  subst hr
  have h1 : getLeaderboardPageForURL ⟨.doc d :: (gs ++ bad :: rest), count, trace⟩
      (getLeaderboardURL id g f) g 1 incl
      = (⟨gs ++ bad :: rest, count + 1, trace ++ [reqURL (getLeaderboardURL id g f) 1]⟩,
         .ok (lb', (if incl then (parseSegment d).toOption else none), false)) := by
    cases incl with
    | false =>
      simp [getLeaderboardPageForURL, processResponse, hparse,
        isEmpty_false_of_ne_nil hne, hnf]
    | true =>
      obtain ⟨s, hs⟩ := hseg rfl d rfl
      simp [getLeaderboardPageForURL, processResponse, hs, hparse,
        isEmpty_false_of_ne_nil hne, hnf, Except.toOption, Except.map]
  rw [List.cons_append, getLeaderboard, h1]
  simp only [Bool.false_eq_true, if_false]
  rw [getLeaderboardLoop_goods g (getLeaderboardURL id g f) gs
    (fun r hr => hgoods r (List.mem_cons_of_mem _ hr)) (bad :: rest) (count + 1)
    (trace ++ [reqURL (getLeaderboardURL id g f) 1]) lb' 1,
    getLeaderboardLoop, hbad]
  have hcount : count + 1 + (gs.length : Int) + 1 =
      count + (((gs.length + 1 : Nat) : Int) + 1) := by
    push_cast
    ring
  have htrace :
      ((trace ++ [reqURL (getLeaderboardURL id g f) 1]) ++
          pagesTrace (getLeaderboardURL id g f) 1 gs.length) ++
        [reqURL (getLeaderboardURL id g f) (1 + (gs.length : Int))] =
      trace ++ reqURL (getLeaderboardURL id g f) 1 ::
        pagesTrace (getLeaderboardURL id g f) 1 (gs.length + 1) := by
    rw [List.append_assoc (trace ++ [reqURL (getLeaderboardURL id g f) 1]),
      pagesTrace_snoc, List.append_assoc, List.singleton_append]
  rw [hcount, htrace]
  simp

/-- Claim C4: the first transport or parse error in a multi-page
retrieval aborts the whole operation with exactly that error: no further
response is consumed (no retry), and the caller receives the error alone
rather than a partially accumulated leaderboard, both through the shared
driver and through the public GetLeaderboard / GetLeaderboardAndSegment. -/
theorem getLeaderboard_first_error_aborts
    (id : Int) (g : Gender) (f : Filter) (incl : Bool)
    (goods : List Response) (bad : Response) (rest : List Response)
    (count : Int) (trace : List String) (e : String)
    (hgoods : ∀ r ∈ goods, nonFinalOk g r)
    (hseg : incl = true → ∀ d, goods.head? = some (.doc d) → ∃ s, parseSegment d = .ok s)
    (hbad : processResponse g (incl && goods.isEmpty) bad = .error e) :
    getLeaderboard ⟨goods ++ bad :: rest, count, trace⟩ id g f incl =
      (⟨rest, count + ((goods.length : Int) + 1),
        trace ++ reqURL (getLeaderboardURL id g f) 1 ::
          pagesTrace (getLeaderboardURL id g f) 1 goods.length⟩,
       .error e) ∧
    (incl = false →
      GetLeaderboard ⟨goods ++ bad :: rest, count, trace⟩ id g f =
        (⟨rest, count + ((goods.length : Int) + 1),
          trace ++ reqURL (getLeaderboardURL id g f) 1 ::
            pagesTrace (getLeaderboardURL id g f) 1 goods.length⟩,
         .error e)) ∧
    (incl = true →
      GetLeaderboardAndSegment ⟨goods ++ bad :: rest, count, trace⟩ id g f =
        (⟨rest, count + ((goods.length : Int) + 1),
          trace ++ reqURL (getLeaderboardURL id g f) 1 ::
            pagesTrace (getLeaderboardURL id g f) 1 goods.length⟩,
         .error e)) := by
  refine ⟨getLeaderboard_drive_error id g f incl goods bad rest count trace e hgoods hseg hbad,
    fun hincl => ?_, fun hincl => ?_⟩
  · subst hincl
    rw [GetLeaderboard,
      getLeaderboard_drive_error id g f false goods bad rest count trace e hgoods hseg hbad]
  · subst hincl
    rw [GetLeaderboardAndSegment,
      getLeaderboard_drive_error id g f true goods bad rest count trace e hgoods hseg hbad]

/-- Witness for C4: one good page then a transport failure; the run
aborts with that error after exactly two requests. -/
theorem getLeaderboard_first_error_aborts_witness :
    getLeaderboard ⟨[.doc docA, .transportError "connection refused"], 0, []⟩
        1234 "M" "overall" false =
      (⟨[], 2, [reqURL (getLeaderboardURL 1234 "M" "overall") 1,
                reqURL (getLeaderboardURL 1234 "M" "overall") 1]⟩,
       .error "connection refused") ∧
    GetLeaderboard ⟨[.doc docA, .transportError "connection refused"], 0, []⟩
        1234 "M" "overall" =
      (⟨[], 2, [reqURL (getLeaderboardURL 1234 "M" "overall") 1,
                reqURL (getLeaderboardURL 1234 "M" "overall") 1]⟩,
       .error "connection refused") := by
  have h := getLeaderboard_first_error_aborts 1234 "M" "overall" false
    [.doc docA] (.transportError "connection refused") [] 0 [] "connection refused"
    (by
      intro r hr
      rw [List.mem_singleton] at hr
      subst hr
      exact ⟨docA, ⟨[entryA], 474⟩, rfl, by decide, by decide, by decide⟩)
    (fun hc => Bool.noConfusion hc)
    (by decide)
  refine ⟨?_, ?_⟩
  · have h1 := h.1
    simpa [pagesTrace] using h1
  · have h2 := h.2.1 rfl
    simpa [pagesTrace] using h2

/-- Claim C2 (refuted): after the non-final fetch of page 1 the next HTTP
request is supposed to carry page=2, but the loop's post statement
increments the page only after the body, so the second request carries
page=1 again: a two-page run requests page 1 twice and page 2 never. -/
theorem getLeaderboard_repeats_page_one :
    (GetLeaderboard ⟨[.doc docA, .doc docB], 0, []⟩ 1234 "M" "overall").1.trace =
      [reqURL (getLeaderboardURL 1234 "M" "overall") 1,
       reqURL (getLeaderboardURL 1234 "M" "overall") 1] ∧
    reqURL (getLeaderboardURL 1234 "M" "overall") 1 =
      "https://www.strava.com/segments/1234?filter=overall&gender=M&per_page=100&page=1" ∧
    (GetLeaderboard ⟨[.doc docA, .doc docB], 0, []⟩ 1234 "M" "overall").1.requestCount = 2 := by
  decide


theorem strApp (a b ab : String) (h : a ++ b = ab) (r : String) : a ++ (b ++ r) = ab ++ r := by
  rw [← String.append_assoc, h]

/-- Claim C5: the leaderboard URL is exactly
https://www.strava.com/segments/{id}?filter={filter}&gender={gender}&per_page=100
for the Overall filter, with date_range=this_year& inserted immediately
before filter= for the CurrentYear filter; in particular id 1234, Male,
Overall gives the exact example string. -/
theorem getLeaderboardURL_spec :
    (∀ (id : Int) (g : Gender),
      getLeaderboardURL id g Filters.Overall =
        "https://www.strava.com/segments/" ++ toString id ++ "?filter=overall&gender=" ++ g ++
          "&per_page=100") ∧
    (∀ (id : Int) (g : Gender),
      getLeaderboardURL id g Filters.CurrentYear =
        "https://www.strava.com/segments/" ++ toString id ++
          "?date_range=this_year&filter=current_year&gender=" ++ g ++ "&per_page=100") ∧
    getLeaderboardURL 1234 Genders.Male Filters.Overall =
      "https://www.strava.com/segments/1234?filter=overall&gender=M&per_page=100" := by
  have h100 : toString MAX_PER_PAGE = "100" := rfl
  refine ⟨fun id g => ?_, fun id g => ?_, by decide⟩
  · simp only [getLeaderboardURL, Filters.Overall, Filters.CurrentYear, h100, String.reduceEq,
      if_false, String.append_assoc]
    rw [strApp "?" "filter=" "?filter=" rfl, strApp "?filter=" "overall" "?filter=overall" rfl,
      strApp "?filter=overall" "&gender=" "?filter=overall&gender=" rfl]
    rfl
  · simp only [getLeaderboardURL, Filters.CurrentYear, h100, String.reduceEq, if_true,
      String.append_assoc]
    rw [strApp "?" "date_range=this_year&" "?date_range=this_year&" rfl,
      strApp "?date_range=this_year&" "filter=" "?date_range=this_year&filter=" rfl,
      strApp "?date_range=this_year&filter=" "current_year"
        "?date_range=this_year&filter=current_year" rfl,
      strApp "?date_range=this_year&filter=current_year" "&gender="
        "?date_range=this_year&filter=current_year&gender=" rfl]
    rfl


theorem isSuffixOf_singleton (c : Char) (l : List Char) :
    ([c].isSuffixOf l) = l.getLast?.elim false (fun d => c == d) := by
  rw [show [c].isSuffixOf l = [c].isPrefixOf l.reverse from rfl, ← List.head?_reverse]
  cases hr : l.reverse with
  | nil => simp [List.isPrefixOf]
  | cons b bs => simp [List.isPrefixOf]

theorem signSplit_append : ∀ cs : List Char, ∃ pre, cs = pre ++ (signSplit cs).2 := by
  intro cs
  cases cs with
  | nil => exact ⟨[], rfl⟩
  | cons c rest =>
    by_cases h1 : c = '+'
    · exact ⟨[c], by simp [signSplit, h1]⟩
    · by_cases h2 : c = '-'
      · exact ⟨[c], by simp [signSplit, h1, h2]⟩
      · exact ⟨[], by simp [signSplit, h1, h2]⟩

theorem ne_nil_of_isEmpty_false {α : Type} {l : List α} (h : l.isEmpty = false) : l ≠ [] := by
  cases l with
  | nil => exact absurd h (by simp)
  | cons x xs => exact fun hc => List.noConfusion hc

theorem getLast?_append_right {α : Type} (l : List α) (h : l ≠ []) :
    ∀ pre : List α, (pre ++ l).getLast? = l.getLast? := by
  intro pre
  induction pre with
  | nil => rfl
  | cons p ps ih =>
    rw [List.cons_append]
    cases hm : ps ++ l with
    | nil => exact absurd (List.append_eq_nil.mp hm).2 h
    | cons a as =>
      rw [List.getLast?_cons_cons, ← hm]
      exact ih

theorem mem_of_getLast? {α : Type} : ∀ {l : List α} {a : α}, l.getLast? = some a → a ∈ l := by
  intro l
  induction l with
  | nil =>
    intro a h
    exact absurd h (by simp)
  | cons x xs ih =>
    intro a h
    cases xs with
    | nil =>
      simp only [List.getLast?_singleton, Option.some.injEq] at h
      rw [h]
      exact List.mem_singleton_self a
    | cons y ys =>
      rw [List.getLast?_cons_cons] at h
      exact List.mem_cons_of_mem _ (ih h)

/- A string accepted by parseInt ends in a decimal digit, so trimming a
trailing "s" from it changes nothing. -/
theorem parseInt_ok_trimSfx (x : String) (v : Int) (h : parseInt x = .ok v) :
    trimSfx x "s" = x := by
  unfold parseInt at h
  by_cases hc : (signSplit x.data).2.isEmpty || !((signSplit x.data).2.all Char.isDigit)
  · rw [if_pos hc] at h
    exact absurd h (by simp)
  · have hc2 := hc
    simp only [Bool.or_eq_true, Bool.not_eq_true', not_or, Bool.not_eq_true] at hc2
    obtain ⟨hemp, hall⟩ := hc2
    have hall2 : (signSplit x.data).2.all Char.isDigit = true := by
      cases hb : (signSplit x.data).2.all Char.isDigit with
      | false => exact absurd hb hall
      | true => rfl
    have hne : (signSplit x.data).2 ≠ [] := ne_nil_of_isEmpty_false hemp
    obtain ⟨pre, hpre⟩ := signSplit_append x.data
    have hlast0 : x.data.getLast? = (signSplit x.data).2.getLast? := by
      conv =>
        lhs
        rw [hpre]
      exact getLast?_append_right _ hne pre
    obtain ⟨d, hd⟩ : ∃ d, (signSplit x.data).2.getLast? = some d := by
      cases hg : (signSplit x.data).2.getLast? with
      | none => exact absurd (List.getLast?_eq_none_iff.mp hg) hne
      | some d => exact ⟨d, rfl⟩
    have hdig : d.isDigit = true :=
      List.all_eq_true.mp hall2 _ (mem_of_getLast? hd)
    have hnes : ('s' == d) = false := by
      rw [beq_eq_false_iff_ne]
      intro hcontra
      rw [← hcontra] at hdig
      exact absurd hdig (by decide)
    have hsuf : ("s".data).isSuffixOf x.data = false := by
      rw [show "s".data = ['s'] from rfl, isSuffixOf_singleton, hlast0, hd]
      exact hnes
    rw [trimSfx, hsuf]
    simp

/-- Claim C6: parseElapsedTime branches on the number of colon-separated
components (three gives hours:minutes:seconds, two gives minutes:seconds,
one gives bare seconds with a trailing s stripped), and in particular
1:02:03 parses to 3723, 5:30 to 330, 45s to 45, while abc fails. -/
theorem parseElapsedTime_spec :
    parseElapsedTime "1:02:03" = .ok 3723 ∧
    parseElapsedTime "5:30" = .ok 330 ∧
    parseElapsedTime "45s" = .ok 45 ∧
    (∃ e, parseElapsedTime "abc" = .error e) ∧
    (∀ (str hc mc sc : String) (hv mv sv : Int),
      goSplit str ':' = [hc, mc, sc] →
      parseInt hc = .ok hv → parseInt mc = .ok mv →
      parseInt (trimSfx sc "s") = .ok sv →
      parseElapsedTime str = .ok (hv * 3600 + mv * 60 + sv)) ∧
    (∀ (str mc sc : String) (mv sv : Int),
      goSplit str ':' = [mc, sc] →
      parseInt mc = .ok mv → parseInt (trimSfx sc "s") = .ok sv →
      parseElapsedTime str = .ok (mv * 60 + sv)) ∧
    (∀ (str sc : String),
      goSplit str ':' = [sc] →
      parseElapsedTime str = parseInt (trimSfx sc "s")) := by
  refine ⟨by decide, by decide, by decide, ⟨intErrSyntax "abc", by decide⟩, ?_, ?_, ?_⟩
  · intro str hc mc sc hv mv sv hsplit hh hm hs
    simp [parseElapsedTime, hsplit, hh, hm, hs, Except.map]
  · intro str mc sc mv sv hsplit hm hs
    simp [parseElapsedTime, hsplit, hm, hs, Except.map]
  · intro str sc hsplit
    simp only [parseElapsedTime, hsplit, List.length_singleton]
    norm_num
    cases hp : parseInt (trimSfx sc "s") with
    | error e => simp [List.headD, hp]
    | ok v => simp [List.headD, hp]

/-- Witness for C6: the three branch characterizations applied at fresh
concrete inputs. -/
theorem parseElapsedTime_spec_witness :
    parseElapsedTime "7:08:09" = .ok (7 * 3600 + 8 * 60 + 9) ∧
    parseElapsedTime "9:05" = .ok (9 * 60 + 5) ∧
    parseElapsedTime "42s" = parseInt (trimSfx "42s" "s") := by
  refine ⟨parseElapsedTime_spec.2.2.2.2.1 "7:08:09" "7" "08" "09" 7 8 9
      (by decide) (by decide) (by decide) (by decide),
    parseElapsedTime_spec.2.2.2.2.2.1 "9:05" "9" "05" 9 5 (by decide) (by decide) (by decide),
    parseElapsedTime_spec.2.2.2.2.2.2 "42s" "42s" (by decide)⟩

/-- Claim C10: on four or more colon-separated components whose first
component is a decimal integer, parseElapsedTime succeeds and returns the
first component as bare seconds, ignoring the rest (neither the 3- nor
the 2-component branch fires). -/
theorem parseElapsedTime_four_components
    (str : String) (v : Int)
    (h4 : 4 ≤ (goSplit str ':').length)
    (hv : parseInt ((goSplit str ':').headD "") = .ok v) :
    parseElapsedTime str = .ok v := by
  have hlen3 : ¬ (goSplit str ':').length = 3 := by omega
  have hlen2 : ¬ (goSplit str ':').length = 2 := by omega
  have hdd : (goSplit str ':').head?.getD "" = (goSplit str ':').headD "" := by
    cases goSplit str ':' <;> rfl
  have htrim : trimSfx ((goSplit str ':').head?.getD "") "s" =
      (goSplit str ':').head?.getD "" := by
    rw [hdd]
    exact parseInt_ok_trimSfx _ v hv
  have hv2 : parseInt ((goSplit str ':').head?.getD "") = .ok v := by
    rw [hdd]
    exact hv
  simp [parseElapsedTime, hlen3, hlen2, htrim, hv2]

/-- Witness for C10: the string 1:2:3:4 parses to 1. -/
theorem parseElapsedTime_four_components_witness :
    parseElapsedTime "1:2:3:4" = .ok 1 :=
  parseElapsedTime_four_components "1:2:3:4" 1 (by decide) (by decide)


/-- Claim C9: isFinalPage is true exactly when the second-to-last
pagination item has class "active" or a next_page pagination item has
class "disabled" — the two signals are combined with OR. -/
theorem isFinalPage_iff (d : Doc) :
    isFinalPage d = true ↔
      ((2 ≤ d.paginationLis.length ∧
        "active" ∈ d.paginationLis.getD (d.paginationLis.length - 2) []) ∨
       (∃ li ∈ d.paginationLis, "next_page" ∈ li ∧ "disabled" ∈ li)) := by
  unfold isFinalPage hasClass paginationSecondToLast paginationNextPage
  by_cases hlen : 2 ≤ d.paginationLis.length
  · rw [if_pos hlen]
    simp only [List.any_eq_true, List.mem_singleton, List.mem_filter, beq_iff_eq,
      Bool.or_eq_true]
    constructor
    · rintro (⟨li, hli, c, hc, hceq⟩ | ⟨li, ⟨hli, c1, hc1, hc1eq⟩, c2, hc2, hc2eq⟩)
      · subst hli
        subst hceq
        exact Or.inl ⟨hlen, hc⟩
      · subst hc1eq
        subst hc2eq
        exact Or.inr ⟨li, hli, hc1, hc2⟩
    · rintro (⟨_, hact⟩ | ⟨li, hli, hnp, hdis⟩)
      · exact Or.inl ⟨_, rfl, "active", hact, rfl⟩
      · exact Or.inr ⟨li, ⟨hli, "next_page", hnp, rfl⟩, "disabled", hdis, rfl⟩
  · rw [if_neg hlen]
    simp only [List.any_nil, Bool.false_or, List.any_eq_true, List.mem_filter, beq_iff_eq]
    constructor
    · rintro ⟨li, ⟨hli, c1, hc1, hc1eq⟩, c2, hc2, hc2eq⟩
      subst hc1eq
      subst hc2eq
      exact Or.inr ⟨li, hli, hc1, hc2⟩
    · rintro (⟨hl2, _⟩ | ⟨li, hli, hnp, hdis⟩)
      · exact absurd hl2 hlen
      · exact ⟨li, ⟨hli, "next_page", hnp, rfl⟩, "disabled", hdis, rfl⟩

/-- Claim C8 (refuted): the claim says the limiter ticks once per tenth of
a second (10 permits/second); NewClient actually passes the bare constant
QPS_LIMIT to time.Tick, a 10-nanosecond period, which admits 10^8 permits
per second.  Only the nil-throttle half holds: the stub client's
request() does not wait. -/
theorem newClient_throttle_interval :
    NewClientThrottle = some 10 ∧
    Second / QPS_LIMIT = 100000000 ∧
    NewClientThrottle ≠ some (Second / QPS_LIMIT) ∧
    requestWaitsForTick NewStubClientThrottle = false ∧
    requestWaitsForTick NewClientThrottle = true := by
  decide

theorem parseRow_noHref_error (g : Gender) (row : Row) (h : row.athleteHref = none) :
    ∃ e, parseRow g row = .error e := by
  unfold parseRow
  cases hrk : (if trimSpace row.rankText = "" then Except.ok (1 : Int)
      else parseInt (trimSpace row.rankText)) with
  | error e => exact ⟨e, rfl⟩
  | ok rank =>
    rw [h]
    exact ⟨"could not find athlete URL", rfl⟩

theorem parseRows_error_of_noHref (g : Gender) : ∀ rows : List Row,
    (∃ row ∈ rows, row.athleteHref = none) → ∃ e, parseRows g rows = .error e := by
  intro rows
  induction rows with
  | nil =>
    rintro ⟨row, hmem, _⟩
    exact absurd hmem (List.not_mem_nil row)
  | cons r rs ih =>
    rintro ⟨row, hmem, hhref⟩
    rw [List.mem_cons] at hmem
    rcases hmem with heq | hmem
    · subst heq
      obtain ⟨e, he⟩ := parseRow_noHref_error g row hhref
      exact ⟨e, by rw [parseRows, he]⟩
    · cases hr : parseRow g r with
      | error e => exact ⟨e, by rw [parseRows, hr]⟩
      | ok entry =>
        obtain ⟨e, he⟩ := ih ⟨row, hmem, hhref⟩
        exact ⟨e, by rw [parseRows, hr, he]⟩

theorem parseLeaderboard_error_of_noHref (g : Gender) (d : Doc)
    (hex : ∃ row ∈ d.rows, row.athleteHref = none) :
    ∃ e, parseLeaderboard d g = .error e := by
  unfold parseLeaderboard
  cases hb : parseInt (trimSpace ((goSplit d.standing '/').getLastD "")) with
  | error e => exact ⟨e, rfl⟩
  | ok val =>
    obtain ⟨e, he⟩ := parseRows_error_of_noHref g d.rows hex
    exact ⟨e, by rw [he]⟩

/-- Claim C3: the elapsed-time cell is the one field whose parse failure
is tolerated: a row that parses has ElapsedTime 0 whenever its elapsed
cell is unparsable, and whether a row parses at all does not depend on
the elapsed cell; by contrast a row without an athlete link fails the
whole page parse, and hence the whole retrieval call. -/
theorem row_elapsed_isolated_athlete_link_fatal :
    (∀ (g : Gender) (row : Row) (entry : LeaderboardEntry),
      parseRow g row = .ok entry →
      exceptOk (parseElapsedTime (trimSpace row.elapsedText)) = false →
      entry.ElapsedTime = 0) ∧
    (∀ (g : Gender) (row : Row) (t t' : String),
      exceptOk (parseRow g { row with elapsedText := t }) =
        exceptOk (parseRow g { row with elapsedText := t' })) ∧
    (∀ (g : Gender) (d : Doc),
      (∃ row ∈ d.rows, row.athleteHref = none) →
      exceptOk (parseLeaderboard d g) = false) ∧
    (∀ (id : Int) (g : Gender) (f : Filter) (goods : List Response) (dbad : Doc)
      (rest : List Response) (count : Int) (trace : List String),
      (∀ r ∈ goods, nonFinalOk g r) →
      (∃ row ∈ dbad.rows, row.athleteHref = none) →
      ∃ e st2, GetLeaderboard ⟨goods ++ .doc dbad :: rest, count, trace⟩ id g f =
        (st2, .error e)) := by
  refine ⟨?_, ?_, ?_, ?_⟩
  · intro g row entry h hfail
    unfold parseRow at h
    repeat' split at h
    all_goals try simp_all [exceptOk]
    all_goals subst h
    all_goals rfl
  · intro g row t t'
    rcases hrk : (if trimSpace row.rankText = "" then Except.ok (1 : Int)
        else parseInt (trimSpace row.rankText)) with e | rank
    · simp [parseRow, hrk, exceptOk]
    · rcases hah : row.athleteHref with _ | href
      · simp [parseRow, hrk, hah, exceptOk]
      · rcases hpd : parseDate (trimSpace row.dateText) with e | startDate
        · simp [parseRow, hrk, hah, hpd, exceptOk]
        · rcases heh : row.effortHref with _ | ehref
          · simp [parseRow, hrk, hah, hpd, heh, exceptOk]
          · rcases hei : parseInt (trimPfx ehref "/segment_efforts/") with e | effortID
            · simp [parseRow, hrk, hah, hpd, heh, hei, exceptOk]
            · simp [parseRow, hrk, hah, hpd, heh, hei, exceptOk]
  · intro g d hex
    obtain ⟨e, he⟩ := parseLeaderboard_error_of_noHref g d hex
    rw [he]
    rfl
  · intro id g f goods dbad rest count trace hgoods hex
    obtain ⟨e, he⟩ := parseLeaderboard_error_of_noHref g dbad hex
    have hbad : processResponse g (false && goods.isEmpty) (.doc dbad) = .error e := by
      rw [Bool.false_and]
      simp [processResponse, he]
    have hdrv := getLeaderboard_drive_error id g f false goods (.doc dbad) rest count trace e
      hgoods (fun hc => Bool.noConfusion hc) hbad
    refine ⟨e, ⟨rest, count + ((goods.length : Int) + 1),
      trace ++ reqURL (getLeaderboardURL id g f) 1 ::
        pagesTrace (getLeaderboardURL id g f) 1 goods.length⟩, ?_⟩
    rw [GetLeaderboard, hdrv]

/-- Witness for C3: a row whose elapsed cell is "abc" still parses, with
ElapsedTime 0; a one-row page whose row lacks the athlete link fails the
page parse and the whole GetLeaderboard call. -/
theorem row_elapsed_isolated_athlete_link_fatal_witness :
    (∃ en, parseRow "M" rowBadElapsed = .ok en ∧ en.ElapsedTime = 0) ∧
    exceptOk (parseLeaderboard docNoHref "M") = false ∧
    (∃ e st2, GetLeaderboard ⟨[.doc docNoHref], 0, []⟩ 1234 "M" "overall" =
      (st2, .error e)) := by
  refine ⟨⟨⟨1, ⟨"https://www.strava.com/athletes/5", "Alice", "M"⟩, 77, ⟨2018, 1, 2⟩, 0⟩,
      by decide, ?_⟩, ?_, ?_⟩
  · exact row_elapsed_isolated_athlete_link_fatal.1 "M" rowBadElapsed _ (by decide) (by decide)
  · exact row_elapsed_isolated_athlete_link_fatal.2.2.1 "M" docNoHref (by decide)
  · exact row_elapsed_isolated_athlete_link_fatal.2.2.2 1234 "M" "overall" [] docNoHref [] 0 []
      (fun r hr => absurd hr (List.not_mem_nil r)) (by decide)


/-- Claim C7: on both construction paths (typed-API GetSegment and HTML
parseSegment) the TotalElevationGain is the maximum of the parsed raw gain
and ElevationHigh - ElevationLow, and AverageGrade is derived as
TotalElevationGain / Distance * 100; with elevation low 83, high 96 and
raw gain 13 the total gain is 13. -/
theorem segment_gain_and_grade :
    (∀ (id : Int) (api : APISegment) (s : Segment),
      GetSegment id (.ok api) = .ok s →
      s.TotalElevationGain =
        max api.TotalElevationGain (api.ElevationHigh - api.ElevationLow) ∧
      s.AverageGrade = s.TotalElevationGain / s.Distance * 100) ∧
    (∀ (d : Doc) (s : Segment) (v : ℚ),
      parseStat d.statTexts 4 = .ok v →
      parseSegment d = .ok s →
      s.TotalElevationGain = max v (s.ElevationHigh - s.ElevationLow) ∧
      s.AverageGrade = s.TotalElevationGain / s.Distance * 100) ∧
    (∀ (id : Int) (api : APISegment) (s : Segment),
      api.ElevationLow = 83 → api.ElevationHigh = 96 → api.TotalElevationGain = 13 →
      GetSegment id (.ok api) = .ok s → s.TotalElevationGain = 13) := by
  refine ⟨?_, ?_, ?_⟩
  · intro id api s h
    simp only [GetSegment, Except.ok.injEq] at h
    subst h
    refine ⟨?_, rfl⟩
    by_cases hgt : api.TotalElevationGain > api.ElevationHigh - api.ElevationLow
    · dsimp only
      rw [if_pos hgt, max_eq_left hgt.le]
    · dsimp only
      rw [if_neg hgt, max_eq_right (le_of_not_lt hgt)]
  · intro d s v hv h
    simp only [parseSegment] at h
    rcases hattr : d.segmentIDAttr with _ | attr
    · simp only [hattr] at h
      exact absurd h (by simp)
    · simp only [hattr] at h
      rcases hid : parseInt attr with e | idv
      · simp only [hid] at h
        exact absurd h (by simp)
      · simp only [hid] at h
        rcases hname : d.segmentNameAttr with _ | name
        · simp only [hname] at h
          exact absurd h (by simp)
        · simp only [hname] at h
          rcases h0 : parseStat d.statTexts 0 with e | v0
          · simp only [h0] at h
            exact absurd h (by simp)
          · simp only [h0] at h
            rcases h2 : parseStat d.statTexts 2 with e | elo
            · simp only [h2] at h
              exact absurd h (by simp)
            · simp only [h2] at h
              rcases h3 : parseStat d.statTexts 3 with e | ehi
              · simp only [h3] at h
                exact absurd h (by simp)
              · simp only [h3] at h
                rw [hv] at h
                simp only [Except.ok.injEq] at h
                subst h
                refine ⟨?_, rfl⟩
                by_cases hgt : v > ehi - elo
                · dsimp only
                  rw [if_pos hgt, max_eq_left hgt.le]
                · dsimp only
                  rw [if_neg hgt, max_eq_right (le_of_not_lt hgt)]
  · intro id api s hlo hhi hg h
    simp only [GetSegment] at h
    rw [hlo, hhi, hg] at h
    have hcond : ¬((13 : ℚ) > 96 - 83) := by norm_num
    rw [if_neg hcond, Except.ok.injEq] at h
    subst h
    dsimp only
    norm_num

/-- Witness for C7: the gain and grade derivations applied at the PCSD
upstream record (API path), at a small scraped page whose raw gain 3 is
under-reported relative to high - low = 4 (HTML path), and at the low 83,
high 96, raw 13 example. -/
theorem segment_gain_and_grade_witness :
    (segPCSD.TotalElevationGain =
      max apiPCSD.TotalElevationGain (apiPCSD.ElevationHigh - apiPCSD.ElevationLow) ∧
     segPCSD.AverageGrade = segPCSD.TotalElevationGain / segPCSD.Distance * 100) ∧
    (segDoc.TotalElevationGain = max 3 (segDoc.ElevationHigh - segDoc.ElevationLow) ∧
     segDoc.AverageGrade = segDoc.TotalElevationGain / segDoc.Distance * 100) ∧
    segPCSD.TotalElevationGain = 13 := by
  have hget : GetSegment 2198806 (.ok apiPCSD) = .ok segPCSD := by
    simp only [GetSegment, apiPCSD]
    have hcond : ¬((13 : ℚ) > 96 - 83) := by norm_num
    rw [if_neg hcond]
    simp only [segPCSD, Except.ok.injEq, Segment.mk.injEq]
    norm_num
    rfl
  have hf2 : parseFloat "2" = .ok 2 := by
    have hd : "2".data = ['2'] := rfl
    simp [parseFloat, parseMantissa, parseExpPart, signSplit, hd, decVal, digitVal, pow10Z,
      pow10]
  have hf0 : parseFloat "0" = .ok 0 := by
    have hd : "0".data = ['0'] := rfl
    simp [parseFloat, parseMantissa, parseExpPart, signSplit, hd, decVal, digitVal, pow10Z,
      pow10]
  have hf5 : parseFloat "5" = .ok 5 := by
    have hd : "5".data = ['5'] := rfl
    simp [parseFloat, parseMantissa, parseExpPart, signSplit, hd, decVal, digitVal, pow10Z,
      pow10]
  have hf9 : parseFloat "9" = .ok 9 := by
    have hd : "9".data = ['9'] := rfl
    simp [parseFloat, parseMantissa, parseExpPart, signSplit, hd, decVal, digitVal, pow10Z,
      pow10]
  have hf3 : parseFloat "3" = .ok 3 := by
    have hd : "3".data = ['3'] := rfl
    simp [parseFloat, parseMantissa, parseExpPart, signSplit, hd, decVal, digitVal, pow10Z,
      pow10]
  have hstat : ∀ i x, docSeg.statTexts.getD i "" = x →
      parseFloat x = parseStat docSeg.statTexts i := by
    intro i x hx
    rw [parseStat, hx]
  have hs0 : parseStat docSeg.statTexts 0 = .ok 2 := by rw [← hstat 0 "2" rfl]; exact hf2
  have hs2 : parseStat docSeg.statTexts 2 = .ok 5 := by rw [← hstat 2 "5" rfl]; exact hf5
  have hs3 : parseStat docSeg.statTexts 3 = .ok 9 := by rw [← hstat 3 "9" rfl]; exact hf9
  have hs4 : parseStat docSeg.statTexts 4 = .ok 3 := by rw [← hstat 4 "3" rfl]; exact hf3
  have hparse : parseSegment docSeg = .ok segDoc := by
    have hint : parseInt "7" = .ok 7 := by decide
    have hcond : ¬((3 : ℚ) > 9 - 5) := by norm_num
    have ha : docSeg.segmentIDAttr = some "7" := rfl
    have hn : docSeg.segmentNameAttr = some "N" := rfl
    have hl : trimSpace docSeg.locationText = "L" := rfl
    simp only [parseSegment, ha, hint, hn, hs0, hs2, hs3, hs4, hl]
    rw [if_neg hcond]
    simp only [segDoc, Except.ok.injEq, Segment.mk.injEq]
    norm_num
  refine ⟨segment_gain_and_grade.1 2198806 apiPCSD segPCSD hget,
    segment_gain_and_grade.2.1 docSeg segDoc 3 hs4 hparse,
    segment_gain_and_grade.2.2 2198806 apiPCSD segPCSD rfl rfl rfl hget⟩

end Stravax
